import Mathlib

/-!
# Verification of the model-showdown pipeline

Shallow embedding of `src/pipeline.ts` and `src/types.ts` of the
model-showdown repository.

Modelling conventions:
* JavaScript numbers are modelled as `Rat` (every numeric value handled by the
  pipeline is an exact decimal); the default JS number-to-string rendering is
  modelled by `numToString`, which agrees with JS on every rational with a
  terminating decimal expansion.
* The `ToolCaller` boundary (`call(tool, args)` followed by zod schema
  validation) is modelled as a structure of four pure functions returning
  `Except String <response>`: a gateway throw and a schema rejection are both
  the `.error` case, carrying the message text.  The spec states the core
  "treats validation failure identically to a gateway call failure".
* `runShowdown` additionally returns the trace of gateway calls it issued
  (a `List Call`), so that call-ordering properties can be stated.
* JS strings are Lean `String`s; `.slice(0, n)` is `jsSlice`, `.includes` is
  `strIncludes`, `.toLowerCase()` is `strToLower` (the pipeline only
  matches ASCII keywords).
-/

namespace ModelShowdown

/-- The four `preferred_capability` literals of `ShowdownConfig`
(`'reasoning' | 'context' | 'speed' | 'code'`). -/
inductive Capability
  | reasoning
  | context
  | speed
  | code
deriving DecidableEq

/-- The five voting-strategy literals (`VotingStrategy` in `types.ts`). -/
inductive VotingStrategy
  | simple_majority
  | supermajority
  | unanimous
  | proof_of_learning
  | higher_order
deriving DecidableEq

/-- The string literal a `VotingStrategy` stands for in TypeScript. -/
def VotingStrategy.name : VotingStrategy → String
  | .simple_majority => "simple_majority"
  | .supermajority => "supermajority"
  | .unanimous => "unanimous"
  | .proof_of_learning => "proof_of_learning"
  | .higher_order => "higher_order"

/-- `VOTING_STRATEGIES` from `types.ts`: the canonical ordered list of the
five strategies. -/
def VOTING_STRATEGIES : List VotingStrategy :=
  [.simple_majority, .supermajority, .unanimous, .proof_of_learning, .higher_order]

/-- The `decision` enum of `VoteResponseSchema`:
`'approved' | 'rejected' | 'pending' | 'timeout'`. -/
inductive Decision
  | approved
  | rejected
  | pending
  | timeout
deriving DecidableEq

/-- The string literal a `Decision` stands for in TypeScript. -/
def Decision.name : Decision → String
  | .approved => "approved"
  | .rejected => "rejected"
  | .pending => "pending"
  | .timeout => "timeout"

/-- An entry of `DelegateResponse.alternatives` (`AlternativeSchema`). -/
structure Alternative where
  model : String
  score : Rat
  tradeoff : String
deriving DecidableEq

/-- `DelegateResponseSchema.capabilities`. -/
structure Capabilities where
  reasoning : Rat
  contextWindow : Rat
  codeGeneration : Rat
  speed : Rat
  cost : Rat
deriving DecidableEq

/-- `GovernanceSchema` (optional annotation on a delegate response). -/
structure Governance where
  domain : String
  votingThreshold : String
  promotionReason : String
deriving DecidableEq

/-- `DelegateResponse` from `types.ts`. -/
structure DelegateResponse where
  recommended_model : String
  reasoning : String
  capabilities : Capabilities
  estimated_tokens : Rat
  alternatives : List Alternative
  governance : Option Governance
deriving DecidableEq

/-- `CreateExpertResponse` from `types.ts`. -/
structure CreateExpertResponse where
  expertId : String
  role : String
  capabilities : List String
  status : String
deriving DecidableEq

/-- `ExecuteExpertResponse` from `types.ts`. -/
structure ExecuteExpertResponse where
  expertId : String
  output : String
  confidence : Rat
  tokensUsed : Rat
deriving DecidableEq

/-- `VoteResponseSchema.voteCounts`. -/
structure VoteCounts where
  approve : Rat
  reject : Rat
  abstain : Rat
  error : Rat
deriving DecidableEq

/-- An entry of `VoteResponse.votes` (`AgentVoteSchema`); its `decision` is
the three-valued per-voter enum `'approve' | 'reject' | 'abstain'`. -/
inductive AgentDecision
  | approve
  | reject
  | abstain
deriving DecidableEq

/-- `AgentVoteSchema` from `types.ts`. -/
structure AgentVote where
  role : String
  decision : AgentDecision
  confidence : Rat
  reasoning : String
  simulated : Bool
  error : Bool
deriving DecidableEq

/-- `VoteResponse` from `types.ts`.  Note that the schema constrains
`strategy` only to `z.string()` — it is NOT checked against the five
strategy literals. -/
structure VoteResponse where
  proposal : String
  strategy : String
  decision : Decision
  approvalPercentage : Rat
  voteCounts : VoteCounts
  votes : List AgentVote
  durationMs : Rat
  simulateVotes : Bool
deriving DecidableEq

/-- `StrategyResult` from `types.ts`.  The TypeScript interface declares
`strategy: VotingStrategy` and `decision: string`, but `toStrategyResult`
populates `strategy` via an unchecked `as VotingStrategy` cast from
`VoteResponse.strategy`, which the schema only constrains to be a string;
both fields are therefore modelled as `String`, the runtime truth. -/
structure StrategyResult where
  strategy : String
  decision : String
  approvalPercentage : Rat
  voteCounts : VoteCounts
  durationMs : Rat
deriving DecidableEq

/-- The `{ model, score }` projection stored in
`ModelEvaluation.alternatives`. -/
structure ModelScore where
  model : String
  score : Rat
deriving DecidableEq

/-- `ModelEvaluation` from `types.ts`. -/
structure ModelEvaluation where
  task : String
  recommendedModel : String
  reasoning : String
  alternatives : List ModelScore
  expertRole : String
  expertOutput : String
  expertConfidence : Rat
deriving DecidableEq

/-- `ShowdownResult` from `types.ts`. -/
structure ShowdownResult where
  evaluation : ModelEvaluation
  strategyResults : List StrategyResult
  strategyAgreement : Rat
  errors : List String
deriving DecidableEq

/-- `ShowdownConfig` from `types.ts` (all overrides optional). -/
structure ShowdownConfig where
  task : String
  preferredCapability : Option Capability
  expertRole : Option String
  strategies : Option (List VotingStrategy)
deriving DecidableEq

/-- One gateway invocation, with the arguments the pipeline passes:
`delegate_to_model {task, preferred_capability?}`, `create_expert {role}`,
`execute_expert {expertId, task}`, `consensus_vote {proposal, strategy}`. -/
inductive Call
  | delegate (task : String) (capability : Option Capability)
  | createExpert (role : String)
  | executeExpert (expertId : String) (task : String)
  | vote (proposal : String) (strategy : VotingStrategy)
deriving DecidableEq

/-- Is this gateway call a `consensus_vote` invocation? -/
def Call.isVote : Call → Bool
  | .vote _ _ => true
  | _ => false

/-- The `ToolCaller` boundary composed with the zod validators: each
operation either yields a validated response or fails with a message
(covering both a gateway throw and a schema rejection). -/
structure Caller where
  delegate : String → Option Capability → Except String DelegateResponse
  createExpert : String → Except String CreateExpertResponse
  executeExpert : String → String → Except String ExecuteExpertResponse
  vote : String → VotingStrategy → Except String VoteResponse

/-! ## String and number helpers -/

/-- Does the character list `hay` contain `pat` as a contiguous infix?
Scans every suffix, as `String.prototype.includes` does. -/
def includesFrom (pat : List Char) : List Char → Bool
  | [] => pat.isEmpty
  | c :: rest => pat.isPrefixOf (c :: rest) || includesFrom pat rest

/-- JS `s.includes(pat)`. -/
def strIncludes (s pat : String) : Bool :=
  includesFrom pat.data s.data

/-- JS `s.toLowerCase()`: character-wise lowering (the pipeline only matches
ASCII keywords). -/
def strToLower (s : String) : String :=
  String.mk (s.data.map Char.toLower)

/-- JS `s.slice(0, n)` for `n ≥ 0`: the first `n` characters of `s`. -/
def jsSlice (s : String) (n : Nat) : String :=
  String.mk (s.data.take n)

/-- The default JS number-to-string rendering, for rationals.  Renders the
exact decimal expansion when it terminates (which covers every numeric
value this pipeline interpolates into strings, and agrees with
JavaScript's shortest-round-trip rendering there); other rationals fall
back to a fraction rendering. -/
def numToString (q : Rat) : String :=
  let sign := if q.num < 0 then "-" else ""
  let n := q.num.natAbs
  let d := q.den
  match (List.range 65).find? (fun k => 10 ^ k % d == 0) with
  | some k =>
    if k == 0 then sign ++ toString (n / d)
    else
      let scaled := n * (10 ^ k / d)
      let ip := scaled / 10 ^ k
      let fp := scaled % 10 ^ k
      let fs := toString fp
      let pad := String.mk (List.replicate (k - fs.length) '0')
      sign ++ toString ip ++ "." ++ pad ++ fs
  | none => sign ++ toString n ++ "/" ++ toString d

/-! ## Pipeline helpers (`src/pipeline.ts`) -/

/-- `buildProposal` from `pipeline.ts`: the consensus proposal text built
from the routing decision and the expert execution outcome.  The TS source
builds the five lines, drops falsy (empty) entries with `.filter(Boolean)`,
and joins with newlines. -/
def buildProposal (delegation : DelegateResponse) (expertResult : ExecuteExpertResponse) :
    String :=
  let alternatives := String.intercalate ", "
    (delegation.alternatives.map (fun a => a.model ++ " (score: " ++ numToString a.score ++ ")"))
  String.intercalate "\n"
    (([
      "Model recommendation: " ++ delegation.recommended_model,
      "Reasoning: " ++ delegation.reasoning,
      if alternatives != "" then "Alternatives: " ++ alternatives else "",
      "Expert analysis (confidence: " ++ numToString expertResult.confidence ++ "):",
      jsSlice expertResult.output 2000
    ]).filter (· != ""))

/-- `toStrategyResult` from `pipeline.ts`: the projection of a vote response
kept for cross-strategy comparison.  `strategy` is copied from the response
(the TS source casts it with `as VotingStrategy`, unchecked). -/
def toStrategyResult (vote : VoteResponse) : StrategyResult :=
  { strategy := vote.strategy
    decision := vote.decision.name
    approvalPercentage := vote.approvalPercentage
    voteCounts := vote.voteCounts
    durationMs := vote.durationMs }

/-- `computeAgreement` from `pipeline.ts`. -/
def computeAgreement (results : List StrategyResult) : Rat :=
  if results.length = 0 then 0
  else
    let decisions := results.map (·.decision)
    let approvedCount := (decisions.filter (· == "approved")).length
    let rejectedCount := (decisions.filter (· == "rejected")).length
    let majorityCount := max approvedCount rejectedCount
    (majorityCount : Rat) / (results.length : Rat)

/-- `inferExpertRole` from `pipeline.ts`: case-insensitive keyword table,
first match wins, falling back to `code_expert`. -/
def inferExpertRole (task : String) : String :=
  let lower := strToLower task
  if strIncludes lower "security" || strIncludes lower "vulnerab" then "security_expert"
  else if strIncludes lower "architect" || strIncludes lower "design" then "architecture_expert"
  else if strIncludes lower "test" || strIncludes lower "qa" then "testing_expert"
  else if strIncludes lower "doc" || strIncludes lower "readme" then "documentation_expert"
  else if strIncludes lower "deploy" || strIncludes lower "ci/cd" then "devops_expert"
  else if strIncludes lower "research" || strIncludes lower "paper" then "research_expert"
  else if strIncludes lower "product" || strIncludes lower "user stor" then "pm_expert"
  else if strIncludes lower "ux" || strIncludes lower "usability" then "ux_expert"
  else "code_expert"

/-- The strategy list `runShowdown` iterates over:
`config.strategies ?? VOTING_STRATEGIES`. -/
def chosenStrategies (config : ShowdownConfig) : List VotingStrategy :=
  config.strategies.getD VOTING_STRATEGIES

/-- The role `runShowdown` sends to `create_expert`:
`config.expertRole ?? inferExpertRole(config.task)`. -/
def chosenRole (config : ShowdownConfig) : String :=
  config.expertRole.getD (inferExpertRole config.task)

/-- The `expertTask` prompt string built inside `runShowdown` for the
execution step. -/
def expertTaskText (config : ShowdownConfig) (delegation : DelegateResponse) : String :=
  "Evaluate this model recommendation for the task: \"" ++ config.task ++ "\"\n\n" ++
  "Recommended: " ++ delegation.recommended_model ++ "\n" ++
  "Reasoning: " ++ delegation.reasoning

/-- The stage-4 voting loop of `runShowdown`: for each strategy in order,
issue one `consensus_vote` call; collect successes as `StrategyResult`s and
record failures as `"<strategy> vote failed: <message>"` error strings.
Returns `(strategyResults, errors, calls issued)`. -/
def voteAll (caller : Caller) (proposal : String) :
    List VotingStrategy → List StrategyResult × List String × List Call
  | [] => ([], [], [])
  | s :: rest =>
    let tail := voteAll caller proposal rest
    match caller.vote proposal s with
    | .ok v =>
      (toStrategyResult v :: tail.1, tail.2.1, Call.vote proposal s :: tail.2.2)
    | .error e =>
      (tail.1, (s.name ++ " vote failed: " ++ e) :: tail.2.1, Call.vote proposal s :: tail.2.2)

/-- `runShowdown` from `pipeline.ts`.  Returns the run outcome (fatal
failures of stages 1–3 propagate as `.error`) together with the ordered
trace of gateway calls issued. -/
def runShowdown (caller : Caller) (config : ShowdownConfig) :
    Except String ShowdownResult × List Call :=
  match caller.delegate config.task config.preferredCapability with
  | .error e => (Except.error e, [Call.delegate config.task config.preferredCapability])
  | .ok delegation =>
    match caller.createExpert (chosenRole config) with
    | .error e =>
      (Except.error e,
       [Call.delegate config.task config.preferredCapability,
        Call.createExpert (chosenRole config)])
    | .ok expert =>
      match caller.executeExpert expert.expertId (expertTaskText config delegation) with
      | .error e =>
        (Except.error e,
         [Call.delegate config.task config.preferredCapability,
          Call.createExpert (chosenRole config),
          Call.executeExpert expert.expertId (expertTaskText config delegation)])
      | .ok expertResult =>
        let evaluation : ModelEvaluation :=
          { task := config.task
            recommendedModel := delegation.recommended_model
            reasoning := delegation.reasoning
            alternatives := delegation.alternatives.map (fun a => ⟨a.model, a.score⟩)
            expertRole := expert.role
            expertOutput := expertResult.output
            expertConfidence := expertResult.confidence }
        let proposal := buildProposal delegation expertResult
        let out := voteAll caller proposal (chosenStrategies config)
        (Except.ok
          { evaluation := evaluation
            strategyResults := out.1
            strategyAgreement := computeAgreement out.1
            errors := out.2.1 },
         Call.delegate config.task config.preferredCapability ::
         Call.createExpert (chosenRole config) ::
         Call.executeExpert expert.expertId (expertTaskText config delegation) ::
         out.2.2)

/-! ## Concrete fixture values (mirroring `src/fixtures/mock-responses.ts`) -/

/-- A concrete routing decision recommending `codex-5.3`, with two
alternatives. -/
def demoDelegate : DelegateResponse :=
  { recommended_model := "codex-5.3"
    reasoning := "Best for code tasks"
    capabilities :=
      { reasoning := 0.9, contextWindow := 0.8, codeGeneration := 0.95, speed := 0.7, cost := 0.6 }
    estimated_tokens := 1200
    alternatives :=
      [{ model := "claude-opus", score := 85, tradeoff := "better reasoning" },
       { model := "claude-sonnet", score := 84, tradeoff := "faster" }]
    governance := none }

/-- A concrete specialist-creation response.  Its `role` deliberately differs
from any requested role string. -/
def demoExpert : CreateExpertResponse :=
  { expertId := "expert-1", role := "surprise_expert", capabilities := ["analysis"],
    status := "ready" }

/-- A concrete execution outcome with confidence 0.88 (spelled as the
reduced rational 22/25 so that it evaluates inside the kernel; the
`OfScientific` rational literals are irreducible). -/
def demoExec : ExecuteExpertResponse :=
  { expertId := "expert-1", output := "Vitest is recommended for TypeScript projects.",
    confidence := ⟨22, 25, by decide, by decide⟩, tokensUsed := 450 }

/-- An execution outcome whose raw output is 5000 characters long. -/
def longExec : ExecuteExpertResponse :=
  { expertId := "expert-1", output := String.mk (List.replicate 5000 'x'),
    confidence := ⟨22, 25, by decide, by decide⟩, tokensUsed := 450 }

/-- A concrete approved strategy result. -/
def approvedResult : StrategyResult :=
  { strategy := "simple_majority", decision := "approved", approvalPercentage := 83.3,
    voteCounts := { approve := 5, reject := 1, abstain := 0, error := 0 }, durationMs := 12500 }

/-- A concrete rejected strategy result. -/
def rejectedResult : StrategyResult :=
  { approvedResult with strategy := "unanimous", decision := "rejected" }

/-- A concrete strategy result whose decision is `"pending"`. -/
def pendingResult : StrategyResult :=
  { approvedResult with decision := "pending" }

/-! ## The voting loop: characterization lemmas (shared helpers) -/

/-- The voting loop collects, in configured order: the successful votes as
`StrategyResult`s, the failures as formatted error strings, and one issued
`consensus_vote` call per strategy. -/
theorem voteAll_spec (caller : Caller) (proposal : String) (l : List VotingStrategy) :
    voteAll caller proposal l =
      (l.filterMap (fun s => match caller.vote proposal s with
        | .ok v => some (toStrategyResult v)
        | .error _ => none),
       l.filterMap (fun s => match caller.vote proposal s with
        | .ok _ => none
        | .error e => some (s.name ++ " vote failed: " ++ e)),
       l.map (Call.vote proposal)) := by
  induction l with
  | nil => rfl
  | cons s rest ih =>
    simp only [voteAll, ih, List.filterMap_cons, List.map_cons]
    cases h : caller.vote proposal s <;> simp [h]

/-- Each strategy contributes to exactly one of the two accumulators. -/
theorem voteAll_length (caller : Caller) (proposal : String) (l : List VotingStrategy) :
    (voteAll caller proposal l).1.length + (voteAll caller proposal l).2.1.length = l.length := by
  induction l with
  | nil => rfl
  | cons s rest ih =>
    simp only [voteAll]
    cases h : caller.vote proposal s <;> simp only [List.length_cons] <;> omega

/-- Success-path characterization of `runShowdown`: when the delegate,
creation and execution calls all succeed, the run returns the fully
assembled `ShowdownResult` and the trace is the three pipeline calls
followed by the voting calls. -/
theorem runShowdown_ok (caller : Caller) (config : ShowdownConfig)
    (delegation : DelegateResponse) (expert : CreateExpertResponse)
    (expertResult : ExecuteExpertResponse)
    (hdel : caller.delegate config.task config.preferredCapability = .ok delegation)
    (hcre : caller.createExpert (chosenRole config) = .ok expert)
    (hexe : caller.executeExpert expert.expertId (expertTaskText config delegation) =
      .ok expertResult) :
    runShowdown caller config =
      (Except.ok
        { evaluation :=
            { task := config.task
              recommendedModel := delegation.recommended_model
              reasoning := delegation.reasoning
              alternatives := delegation.alternatives.map (fun a => ⟨a.model, a.score⟩)
              expertRole := expert.role
              expertOutput := expertResult.output
              expertConfidence := expertResult.confidence }
          strategyResults :=
            (voteAll caller (buildProposal delegation expertResult) (chosenStrategies config)).1
          strategyAgreement :=
            computeAgreement
              (voteAll caller (buildProposal delegation expertResult) (chosenStrategies config)).1
          errors :=
            (voteAll caller (buildProposal delegation expertResult)
              (chosenStrategies config)).2.1 },
       Call.delegate config.task config.preferredCapability ::
       Call.createExpert (chosenRole config) ::
       Call.executeExpert expert.expertId (expertTaskText config delegation) ::
       (voteAll caller (buildProposal delegation expertResult)
         (chosenStrategies config)).2.2) := by
  simp only [runShowdown, hdel, hcre, hexe]

/-! ## C3: computeAgreement -/

/-- C3: `computeAgreement` returns 0 on the empty list; on a non-empty list it
returns `max(approvedCount, rejectedCount) / totalCount`, where the counts
only count entries whose decision is literally `"approved"` resp.
`"rejected"` (so `"pending"`/`"timeout"` entries count in the denominator but
in neither numerator); the result always lies in `[0, 1]`; and 4 approvals
plus 1 rejection give 0.8. -/
theorem claim_C3 :
    computeAgreement [] = 0 ∧
    (∀ l : List StrategyResult, l ≠ [] →
      computeAgreement l =
        ((max ((l.filter (fun r => r.decision == "approved")).length)
              ((l.filter (fun r => r.decision == "rejected")).length) : ℕ) : Rat) /
          (l.length : Rat)) ∧
    (∀ l : List StrategyResult, 0 ≤ computeAgreement l ∧ computeAgreement l ≤ 1) ∧
    computeAgreement
      [approvedResult, approvedResult, approvedResult, approvedResult, rejectedResult] = 0.8 := by
  refine ⟨rfl, ?_, ?_, by simp [computeAgreement, approvedResult, rejectedResult]; norm_num⟩
  · intro l hl
    have hlen : l.length ≠ 0 := fun h => hl (List.length_eq_zero.mp h)
    simp only [computeAgreement, if_neg hlen, List.filter_map, List.length_map,
      Function.comp_def]
  · intro l
    by_cases h : l.length = 0
    · simp [computeAgreement, h]
    · have hle : ∀ p : String → Bool,
          ((l.map (fun r => r.decision)).filter p).length ≤ l.length := by
        intro p
        calc ((l.map (fun r => r.decision)).filter p).length
            ≤ (l.map (fun r => r.decision)).length := List.length_filter_le _ _
          _ = l.length := List.length_map _ _
      have hpos : (0 : Rat) < (l.length : Rat) := by
        exact_mod_cast Nat.pos_of_ne_zero h
      constructor
      · simp only [computeAgreement, if_neg h]
        exact div_nonneg (Nat.cast_nonneg _) (Nat.cast_nonneg _)
      · simp only [computeAgreement, if_neg h]
        rw [div_le_one hpos]
        exact_mod_cast max_le (hle _) (hle _)

/-- Instantiation of C3 at concrete inputs. -/
theorem claim_C3_witness :
    ([approvedResult, rejectedResult, pendingResult] : List StrategyResult) ≠ [] ∧
    computeAgreement [approvedResult, rejectedResult, pendingResult] =
      ((max (([approvedResult, rejectedResult, pendingResult].filter
                (fun r => r.decision == "approved")).length)
            (([approvedResult, rejectedResult, pendingResult].filter
                (fun r => r.decision == "rejected")).length) : ℕ) : Rat) /
        (([approvedResult, rejectedResult, pendingResult] : List StrategyResult).length : Rat) :=
  ⟨List.cons_ne_nil _ _, claim_C3.2.1 _ (List.cons_ne_nil _ _)⟩

/-! ## C4: all-same-decision lists -/

/-- C4 fails on the code as stated: a one-element list whose entry carries
decision `"pending"` has all entries sharing one decision, yet its agreement
is 0, not 1 — `"pending"` counts toward neither numerator. -/
theorem claim_C4_counterexample :
    computeAgreement [pendingResult] = 0 ∧ computeAgreement [pendingResult] ≠ 1 := by
  constructor <;> simp [computeAgreement, pendingResult, approvedResult]

/-- C4 (amended): for every `N ≥ 1` and list of `N` strategy results all
sharing the same decision `d`, `computeAgreement` returns 1 **when `d` is
`"approved"` or `"rejected"`**. -/
theorem claim_C4 (l : List StrategyResult) (d : String) (hne : l ≠ [])
    (hd : d = "approved" ∨ d = "rejected") (hall : ∀ r ∈ l, r.decision = d) :
    computeAgreement l = 1 := by
  have hlen : l.length ≠ 0 := fun h => hne (List.length_eq_zero.mp h)
  have hlenQ : ((l.length : ℕ) : Rat) ≠ 0 := Nat.cast_ne_zero.mpr hlen
  have hle : ∀ p : String → Bool,
      ((l.map (fun r => r.decision)).filter p).length ≤ l.length := by
    intro p
    calc ((l.map (fun r => r.decision)).filter p).length
        ≤ (l.map (fun r => r.decision)).length := List.length_filter_le _ _
      _ = l.length := List.length_map _ _
  have hfull : ∀ p : String → Bool, p d = true →
      ((l.map (fun r => r.decision)).filter p).length = l.length := by
    intro p hp
    rw [List.filter_eq_self.mpr, List.length_map]
    intro a ha
    obtain ⟨r, hr, rfl⟩ := List.mem_map.mp ha
    rw [hall r hr]
    exact hp
  simp only [computeAgreement, if_neg hlen]
  rcases hd with hd | hd
  · rw [hfull (· == "approved") (by rw [hd]; rfl),
      max_eq_left (hle (· == "rejected"))]
    exact div_self hlenQ
  · rw [hfull (· == "rejected") (by rw [hd]; rfl),
      max_eq_right (hle (· == "approved"))]
    exact div_self hlenQ

/-- Instantiation of the amended C4 at a concrete all-approved list. -/
theorem claim_C4_witness :
    (∀ r ∈ ([approvedResult, approvedResult] : List StrategyResult), r.decision = "approved") ∧
    computeAgreement [approvedResult, approvedResult] = 1 :=
  ⟨by simp [approvedResult], claim_C4 [approvedResult, approvedResult] "approved"
    (List.cons_ne_nil _ _) (Or.inl rfl) (by simp [approvedResult])⟩

/-! ## Mock gateways (for concrete witnesses) -/

/-- An approving vote response that echoes the requested strategy's name. -/
def mkVote (s : VotingStrategy) : VoteResponse :=
  { proposal := "", strategy := s.name, decision := .approved, approvalPercentage := 83.3,
    voteCounts := { approve := 5, reject := 1, abstain := 0, error := 0 },
    votes := [], durationMs := 12500, simulateVotes := true }

/-- A fully successful mock gateway. -/
def okCaller : Caller :=
  { delegate := fun _ _ => .ok demoDelegate
    createExpert := fun _ => .ok demoExpert
    executeExpert := fun _ _ => .ok demoExec
    vote := fun _ s => .ok (mkVote s) }

/-- A gateway whose pipeline stages succeed but whose every voting call
fails with message `boom`. -/
def failVotesCaller : Caller :=
  { okCaller with vote := fun _ _ => .error "boom" }

/-- A gateway whose every vote response reports strategy `simple_majority`
regardless of the strategy that was requested (the vote schema only checks
that `strategy` is a string, so this passes validation). -/
def echoSameCaller : Caller :=
  { okCaller with vote := fun _ _ => .ok (mkVote .simple_majority) }

/-- A gateway whose routing call fails. -/
def failDelegateCaller : Caller :=
  { okCaller with delegate := fun _ _ => .error "route down" }

/-- A gateway whose specialist-creation call fails. -/
def failCreateCaller : Caller :=
  { okCaller with createExpert := fun _ => .error "create down" }

/-- A gateway whose execution call fails. -/
def failExecuteCaller : Caller :=
  { okCaller with executeExpert := fun _ _ => .error "exec down" }

/-- A configuration with no overrides (its task text matches no role
keyword). -/
def defaultConfig : ShowdownConfig :=
  { task := "Refactor billing module", preferredCapability := none, expertRole := none,
    strategies := none }

/-- A configuration overriding `strategies` with a 2-entry list. -/
def twoConfig : ShowdownConfig :=
  { defaultConfig with strategies := some [.unanimous, .higher_order] }

/-! ## C1: voting failures are caught, recorded, and non-fatal -/

/-- C1: when stages 1–3 succeed, `runShowdown` never raises for voting
failures: it returns a `ShowdownResult`, records one
`"<strategy> vote failed: <message>"` error string per failing strategy in
configured order, and still issues a voting call for every configured
strategy; when every voting call fails the result has an empty
`strategyResults`, `strategyAgreement` 0, and one error per attempted
strategy. -/
theorem claim_C1 (caller : Caller) (config : ShowdownConfig)
    (delegation : DelegateResponse) (expert : CreateExpertResponse)
    (expertResult : ExecuteExpertResponse)
    (hdel : caller.delegate config.task config.preferredCapability = .ok delegation)
    (hcre : caller.createExpert (chosenRole config) = .ok expert)
    (hexe : caller.executeExpert expert.expertId (expertTaskText config delegation) =
      .ok expertResult) :
    (runShowdown caller config).1.isOk = true ∧
    Except.map ShowdownResult.errors (runShowdown caller config).1 =
      Except.ok ((chosenStrategies config).filterMap (fun s =>
        match caller.vote (buildProposal delegation expertResult) s with
        | .ok _ => none
        | .error e => some (s.name ++ " vote failed: " ++ e))) ∧
    (runShowdown caller config).2.filter Call.isVote =
      (chosenStrategies config).map (Call.vote (buildProposal delegation expertResult)) ∧
    ((∀ s ∈ chosenStrategies config,
        ∃ e, caller.vote (buildProposal delegation expertResult) s = Except.error e) →
      Except.map ShowdownResult.strategyResults (runShowdown caller config).1 =
        Except.ok [] ∧
      Except.map ShowdownResult.strategyAgreement (runShowdown caller config).1 =
        Except.ok 0 ∧
      Except.map (fun r => r.errors.length) (runShowdown caller config).1 =
        Except.ok (chosenStrategies config).length) := by
  have hrun := runShowdown_ok caller config delegation expert expertResult hdel hcre hexe
  have hvote := voteAll_spec caller (buildProposal delegation expertResult)
    (chosenStrategies config)
  have hlen := voteAll_length caller (buildProposal delegation expertResult)
    (chosenStrategies config)
  refine ⟨?_, ?_, ?_, ?_⟩
  · rw [hrun]
    rfl
  · rw [hrun]
    simp only [Except.map, hvote]
  · rw [hrun]
    simp [Call.isVote, hvote, List.filter_map, Function.comp_def]
  · intro hfail
    have hnil :
        (voteAll caller (buildProposal delegation expertResult) (chosenStrategies config)).1
          = [] := by
      rw [hvote]
      refine List.filterMap_eq_nil_iff.mpr (fun s hs => ?_)
      obtain ⟨e, he⟩ := hfail s hs
      simp [he]
    rw [hnil] at hlen
    refine ⟨?_, ?_, ?_⟩
    · rw [hrun]
      simp only [Except.map, hnil]
    · rw [hrun]
      simp only [Except.map, hnil]
      rfl
    · rw [hrun]
      simp only [Except.map]
      simpa using hlen

/-- Instantiation of C1: a run in which every one of the five default
strategies' voting calls fails still returns a structurally complete result
(agreement 0, five errors, no strategy results). -/
theorem claim_C1_witness :
    (runShowdown failVotesCaller defaultConfig).1.isOk = true ∧
    Except.map ShowdownResult.strategyResults (runShowdown failVotesCaller defaultConfig).1 =
      Except.ok [] ∧
    Except.map ShowdownResult.strategyAgreement (runShowdown failVotesCaller defaultConfig).1 =
      Except.ok 0 ∧
    Except.map (fun r => r.errors.length) (runShowdown failVotesCaller defaultConfig).1 =
      Except.ok 5 := by
  obtain ⟨hok, -, -, hfails⟩ :=
    claim_C1 failVotesCaller defaultConfig demoDelegate demoExpert demoExec rfl rfl rfl
  obtain ⟨h1, h2, h3⟩ := hfails (fun s _ => ⟨"boom", rfl⟩)
  exact ⟨hok, h1, h2, h3⟩

/-! ## C2: results plus errors account for every attempted strategy -/

/-- C2: for every completing run, `strategyResults.length + errors.length`
equals the number of attempted strategies — the length of
`config.strategies` when supplied, 5 otherwise. -/
theorem claim_C2 (caller : Caller) (config : ShowdownConfig)
    (delegation : DelegateResponse) (expert : CreateExpertResponse)
    (expertResult : ExecuteExpertResponse)
    (hdel : caller.delegate config.task config.preferredCapability = .ok delegation)
    (hcre : caller.createExpert (chosenRole config) = .ok expert)
    (hexe : caller.executeExpert expert.expertId (expertTaskText config delegation) =
      .ok expertResult) :
    Except.map (fun r => r.strategyResults.length + r.errors.length)
      (runShowdown caller config).1 =
      Except.ok (match config.strategies with
        | some l => l.length
        | none => 5) := by
  have hrun := runShowdown_ok caller config delegation expert expertResult hdel hcre hexe
  have hlen := voteAll_length caller (buildProposal delegation expertResult)
    (chosenStrategies config)
  rw [hrun]
  simp only [Except.map]
  rw [hlen]
  cases h : config.strategies <;> simp [chosenStrategies, h, VOTING_STRATEGIES]

/-- Instantiation of C2 at a 2-strategy override (both votes succeed). -/
theorem claim_C2_witness :
    Except.map (fun r => r.strategyResults.length + r.errors.length)
      (runShowdown okCaller twoConfig).1 = Except.ok 2 :=
  claim_C2 okCaller twoConfig demoDelegate demoExpert demoExec rfl rfl rfl

/-! ## C5: gateway call order -/

/-- C5: every successful run issues exactly one routing call, then one
creation call, then one execution call, then one voting call per configured
strategy, in that relative order with the voting calls in configured order;
with no override the five canonical strategies are voted in canonical order;
with a 2-entry override exactly 2 voting calls are issued, and when both
succeed `strategyResults` has length 2. -/
theorem claim_C5 (caller : Caller) (config : ShowdownConfig)
    (delegation : DelegateResponse) (expert : CreateExpertResponse)
    (expertResult : ExecuteExpertResponse)
    (hdel : caller.delegate config.task config.preferredCapability = .ok delegation)
    (hcre : caller.createExpert (chosenRole config) = .ok expert)
    (hexe : caller.executeExpert expert.expertId (expertTaskText config delegation) =
      .ok expertResult) :
    (runShowdown caller config).2 =
      Call.delegate config.task config.preferredCapability ::
      Call.createExpert (chosenRole config) ::
      Call.executeExpert expert.expertId (expertTaskText config delegation) ::
      (chosenStrategies config).map (Call.vote (buildProposal delegation expertResult)) ∧
    (config.strategies = none →
      (runShowdown caller config).2.filter Call.isVote =
        [Call.vote (buildProposal delegation expertResult) .simple_majority,
         Call.vote (buildProposal delegation expertResult) .supermajority,
         Call.vote (buildProposal delegation expertResult) .unanimous,
         Call.vote (buildProposal delegation expertResult) .proof_of_learning,
         Call.vote (buildProposal delegation expertResult) .higher_order]) ∧
    (∀ s₁ s₂ : VotingStrategy, config.strategies = some [s₁, s₂] →
      ((runShowdown caller config).2.filter Call.isVote).length = 2 ∧
      (∀ v₁ v₂, caller.vote (buildProposal delegation expertResult) s₁ = .ok v₁ →
        caller.vote (buildProposal delegation expertResult) s₂ = .ok v₂ →
        Except.map (fun r => r.strategyResults.length) (runShowdown caller config).1 =
          Except.ok 2)) := by
  have hrun := runShowdown_ok caller config delegation expert expertResult hdel hcre hexe
  have hvote := voteAll_spec caller (buildProposal delegation expertResult)
    (chosenStrategies config)
  have htrace : (runShowdown caller config).2 =
      Call.delegate config.task config.preferredCapability ::
      Call.createExpert (chosenRole config) ::
      Call.executeExpert expert.expertId (expertTaskText config delegation) ::
      (chosenStrategies config).map (Call.vote (buildProposal delegation expertResult)) := by
    rw [hrun]
    simp only [hvote]
  refine ⟨htrace, ?_, ?_⟩
  · intro h
    rw [htrace]
    simp [Call.isVote, chosenStrategies, h, VOTING_STRATEGIES, List.filter_map,
      Function.comp_def]
  · intro s₁ s₂ h
    constructor
    · rw [htrace]
      simp [Call.isVote, chosenStrategies, h, List.filter_map, Function.comp_def]
    · intro v₁ v₂ hv₁ hv₂
      have hvote2 := voteAll_spec caller (buildProposal delegation expertResult) [s₁, s₂]
      rw [hrun]
      simp [Except.map, chosenStrategies, h, hvote2, hv₁, hv₂]

/-- Instantiation of C5: the default run's full trace, and a 2-strategy
override issuing exactly 2 voting calls with 2 collected results. -/
theorem claim_C5_witness :
    (runShowdown okCaller defaultConfig).2 =
      Call.delegate "Refactor billing module" none ::
      Call.createExpert "code_expert" ::
      Call.executeExpert "expert-1" (expertTaskText defaultConfig demoDelegate) ::
      VOTING_STRATEGIES.map (Call.vote (buildProposal demoDelegate demoExec)) ∧
    ((runShowdown okCaller twoConfig).2.filter Call.isVote).length = 2 ∧
    Except.map (fun r => r.strategyResults.length) (runShowdown okCaller twoConfig).1 =
      Except.ok 2 := by
  obtain ⟨h1, -, -⟩ :=
    claim_C5 okCaller defaultConfig demoDelegate demoExpert demoExec rfl rfl rfl
  obtain ⟨h2, h3⟩ :=
    (claim_C5 okCaller twoConfig demoDelegate demoExpert demoExec rfl rfl rfl).2.2
      .unanimous .higher_order rfl
  exact ⟨h1, h2, h3 (mkVote .unanimous) (mkVote .higher_order) rfl rfl⟩

/-! ## C7: role inference -/

/-- C7: role inference is a pure case-insensitive substring match against the
fixed ordered rule table with first-match-wins and `code_expert` fallback:
a security-audit task yields `security_expert`, keyword-free text yields
`code_expert`, text with both "security" and "test" yields `security_expert`
(the security rule is checked first); `runShowdown` sends the inferred role to
the creation call only when `config.expertRole` is not supplied, the override
verbatim otherwise. -/
theorem claim_C7 :
    inferExpertRole "Security audit of auth module" = "security_expert" ∧
    inferExpertRole "Refactor billing module" = "code_expert" ∧
    inferExpertRole "Write security tests" = "security_expert" ∧
    (∀ task : String,
      (strIncludes (strToLower task) "security" ||
        strIncludes (strToLower task) "vulnerab") = true →
      inferExpertRole task = "security_expert") ∧
    (∀ task : String,
      strIncludes (strToLower task) "security" = false →
      strIncludes (strToLower task) "vulnerab" = false →
      strIncludes (strToLower task) "architect" = false →
      strIncludes (strToLower task) "design" = false →
      strIncludes (strToLower task) "test" = false →
      strIncludes (strToLower task) "qa" = false →
      strIncludes (strToLower task) "doc" = false →
      strIncludes (strToLower task) "readme" = false →
      strIncludes (strToLower task) "deploy" = false →
      strIncludes (strToLower task) "ci/cd" = false →
      strIncludes (strToLower task) "research" = false →
      strIncludes (strToLower task) "paper" = false →
      strIncludes (strToLower task) "product" = false →
      strIncludes (strToLower task) "user stor" = false →
      strIncludes (strToLower task) "ux" = false →
      strIncludes (strToLower task) "usability" = false →
      inferExpertRole task = "code_expert") ∧
    (∀ (caller : Caller) (config : ShowdownConfig) (delegation : DelegateResponse),
      caller.delegate config.task config.preferredCapability = .ok delegation →
      ∃ rest, (runShowdown caller config).2 =
        Call.delegate config.task config.preferredCapability ::
        Call.createExpert (match config.expertRole with
          | some r => r
          | none => inferExpertRole config.task) :: rest) := by
  refine ⟨by decide, by decide, by decide, ?_, ?_, ?_⟩
  · intro task h
    simp [inferExpertRole, h]
  · intro task h1 h2 h3 h4 h5 h6 h7 h8 h9 h10 h11 h12 h13 h14 h15 h16
    simp [inferExpertRole, h1, h2, h3, h4, h5, h6, h7, h8, h9, h10, h11, h12, h13, h14,
      h15, h16]
  · intro caller config delegation hdel
    have hrole : Call.createExpert (chosenRole config) =
        Call.createExpert (match config.expertRole with
          | some r => r
          | none => inferExpertRole config.task) := by
      cases h : config.expertRole <;> simp [chosenRole, h]
    simp only [runShowdown, hdel]
    cases hc : caller.createExpert (chosenRole config) with
    | error e => exact ⟨[], by rw [← hrole]⟩
    | ok expert =>
      cases hx : caller.executeExpert expert.expertId (expertTaskText config delegation) with
      | error e =>
        exact ⟨[Call.executeExpert expert.expertId (expertTaskText config delegation)],
          by simp only [hx]; rw [← hrole]⟩
      | ok expertResult =>
        exact ⟨Call.executeExpert expert.expertId (expertTaskText config delegation) ::
          (voteAll caller (buildProposal delegation expertResult)
            (chosenStrategies config)).2.2, by simp only [hx]; rw [← hrole]⟩

/-- Instantiation of C7: the first-rule hypothesis holds for a
vulnerability-scan task, and a default run sends the inferred role to the
creation call. -/
theorem claim_C7_witness :
    (strIncludes (strToLower "Vulnerability scan") "security" ||
      strIncludes (strToLower "Vulnerability scan") "vulnerab") = true ∧
    inferExpertRole "Vulnerability scan" = "security_expert" ∧
    strIncludes (strToLower "Refactor billing module") "security" = false ∧
    inferExpertRole "Refactor billing module" = "code_expert" ∧
    (runShowdown okCaller defaultConfig).2[1]? =
      some (Call.createExpert (inferExpertRole "Refactor billing module")) := by
  refine ⟨by decide, claim_C7.2.2.2.1 "Vulnerability scan" (by decide), by decide,
    claim_C7.2.2.2.2.1 "Refactor billing module" (by decide) (by decide) (by decide)
      (by decide) (by decide) (by decide) (by decide) (by decide) (by decide) (by decide)
      (by decide) (by decide) (by decide) (by decide) (by decide) (by decide), ?_⟩
  obtain ⟨rest, h⟩ := claim_C7.2.2.2.2.2 okCaller defaultConfig demoDelegate rfl
  rw [h]
  simp [defaultConfig]

/-! ## C8: fatal pipeline failures propagate -/

/-- C8: when the routing, creation, or execution call fails (gateway throw or
validator rejection), `runShowdown` propagates the failure, produces no
`ShowdownResult`, and issues no voting call. -/
theorem claim_C8 (caller : Caller) (config : ShowdownConfig) :
    (∀ e, caller.delegate config.task config.preferredCapability = .error e →
      (runShowdown caller config).1 = .error e ∧
      (runShowdown caller config).2.filter Call.isVote = []) ∧
    (∀ delegation e,
      caller.delegate config.task config.preferredCapability = .ok delegation →
      caller.createExpert (chosenRole config) = .error e →
      (runShowdown caller config).1 = .error e ∧
      (runShowdown caller config).2.filter Call.isVote = []) ∧
    (∀ delegation expert e,
      caller.delegate config.task config.preferredCapability = .ok delegation →
      caller.createExpert (chosenRole config) = .ok expert →
      caller.executeExpert expert.expertId (expertTaskText config delegation) = .error e →
      (runShowdown caller config).1 = .error e ∧
      (runShowdown caller config).2.filter Call.isVote = []) := by
  refine ⟨?_, ?_, ?_⟩
  · intro e h
    simp [runShowdown, h, Call.isVote]
  · intro delegation e h1 h2
    simp [runShowdown, h1, h2, Call.isVote]
  · intro delegation expert e h1 h2 h3
    simp [runShowdown, h1, h2, h3, Call.isVote]

/-- Instantiation of C8 at three gateways failing at each fatal stage. -/
theorem claim_C8_witness :
    (runShowdown failDelegateCaller defaultConfig).1 = Except.error "route down" ∧
    (runShowdown failDelegateCaller defaultConfig).2.filter Call.isVote = [] ∧
    (runShowdown failCreateCaller defaultConfig).1 = Except.error "create down" ∧
    (runShowdown failCreateCaller defaultConfig).2.filter Call.isVote = [] ∧
    (runShowdown failExecuteCaller defaultConfig).1 = Except.error "exec down" ∧
    (runShowdown failExecuteCaller defaultConfig).2.filter Call.isVote = [] := by
  obtain ⟨h1, h2⟩ := (claim_C8 failDelegateCaller defaultConfig).1 "route down" rfl
  obtain ⟨h3, h4⟩ :=
    (claim_C8 failCreateCaller defaultConfig).2.1 demoDelegate "create down" rfl rfl
  obtain ⟨h5, h6⟩ :=
    (claim_C8 failExecuteCaller defaultConfig).2.2 demoDelegate demoExpert "exec down"
      rfl rfl rfl
  exact ⟨h1, h2, h3, h4, h5, h6⟩

/-! ## C10: the evaluation reports the role from the creation response -/

/-- C10: `evaluation.expertRole` is the role string reported by the
specialist-creation response, not the role that was requested or inferred. -/
theorem claim_C10 (caller : Caller) (config : ShowdownConfig)
    (delegation : DelegateResponse) (expert : CreateExpertResponse)
    (expertResult : ExecuteExpertResponse)
    (hdel : caller.delegate config.task config.preferredCapability = .ok delegation)
    (hcre : caller.createExpert (chosenRole config) = .ok expert)
    (hexe : caller.executeExpert expert.expertId (expertTaskText config delegation) =
      .ok expertResult) :
    Except.map (fun r => r.evaluation.expertRole) (runShowdown caller config).1 =
      Except.ok expert.role := by
  rw [runShowdown_ok caller config delegation expert expertResult hdel hcre hexe]
  rfl

/-- Instantiation of C10 at a gateway whose creation response reports role
`surprise_expert` although role `code_expert` was requested. -/
theorem claim_C10_witness :
    Except.map (fun r => r.evaluation.expertRole) (runShowdown okCaller defaultConfig).1 =
      Except.ok "surprise_expert" ∧
    chosenRole defaultConfig = "code_expert" ∧
    demoExpert.role ≠ "code_expert" :=
  ⟨claim_C10 okCaller defaultConfig demoDelegate demoExpert demoExec rfl rfl rfl,
   by decide, by decide⟩

/-! ## C6: proposal construction -/

/-- A string with non-empty character data is not the empty string. -/
theorem ne_empty_of_length_pos {s : String} (h : 0 < s.length) : s ≠ "" := by
  intro he
  subst he
  exact absurd h (by decide)

/-- A non-empty string has positive length. -/
theorem length_pos_of_ne_empty {s : String} (h : s ≠ "") : 0 < s.length := by
  show 0 < s.data.length
  cases hx : s.data with
  | nil => exact absurd (String.ext hx) h
  | cons c cs => simp

/-- Boolean form of string non-emptiness (the truthiness test the TS source
uses). -/
theorem bne_empty_of_ne {s : String} (h : s ≠ "") : (s != "") = true :=
  bne_iff_ne.mpr h

/-- The accumulator's length never shrinks through `String.intercalate.go`. -/
theorem intercalate_go_length (s : String) :
    ∀ (as : List String) (acc : String),
      acc.length ≤ (String.intercalate.go acc s as).length
  | [], acc => Nat.le_refl _
  | a :: as, acc => by
    have h := intercalate_go_length s as (acc ++ s ++ a)
    have h2 : acc.length ≤ (acc ++ s ++ a).length := by
      simp only [String.length_append]
      omega
    exact Nat.le_trans h2 h

/-- Joining a list whose head is non-empty yields a non-empty string. -/
theorem intercalate_ne_empty (sep x : String) (xs : List String) (h : x ≠ "") :
    String.intercalate sep (x :: xs) ≠ "" := by
  apply ne_empty_of_length_pos
  have hle := intercalate_go_length sep xs x
  have hx := length_pos_of_ne_empty h
  show 0 < (String.intercalate.go x sep xs).length
  omega

/-- The comma-joined alternatives text is non-empty whenever the alternatives
list is non-empty: each entry contains the literal `" (score: "`. -/
theorem altText_ne_empty (alts : List Alternative) (h : alts ≠ []) :
    String.intercalate ", "
      (alts.map (fun a => a.model ++ " (score: " ++ numToString a.score ++ ")")) ≠ "" := by
  cases halts : alts with
  | nil => exact absurd halts h
  | cons a0 rest =>
    simp only [List.map_cons]
    apply intercalate_ne_empty
    apply ne_empty_of_length_pos
    simp only [String.length_append]
    have h9 : 0 < (" (score: " : String).length := by decide
    omega

set_option maxRecDepth 2000 in
/-- C6: `buildProposal` is the newline-joined concatenation of the
recommendation line, the reasoning line, an alternatives line formatted
`"model (score: N)"` comma-joined (omitted entirely — not emitted blank —
when the alternatives list is empty), the confidence line, and the expert
output truncated to its first 2000 characters with no ellipsis marker; for
the concrete fixture (recommending `codex-5.3`, confidence 0.88) the
proposal contains the literal substrings `"codex-5.3"` and
`"confidence: 0.88"` and the truncated output, and even with a
5000-character raw output the proposal length stays bounded (≤ 2200). -/
theorem claim_C6 :
    (∀ (d : DelegateResponse) (e : ExecuteExpertResponse),
      e.output ≠ "" → d.alternatives ≠ [] →
      buildProposal d e =
        "Model recommendation: " ++ d.recommended_model ++ "\n" ++
        ("Reasoning: " ++ d.reasoning ++ "\n" ++
        ("Alternatives: " ++ String.intercalate ", "
            (d.alternatives.map
              (fun a => a.model ++ " (score: " ++ numToString a.score ++ ")")) ++ "\n" ++
        ("Expert analysis (confidence: " ++ numToString e.confidence ++ "):" ++ "\n" ++
        jsSlice e.output 2000)))) ∧
    (∀ (d : DelegateResponse) (e : ExecuteExpertResponse),
      e.output ≠ "" → d.alternatives = [] →
      buildProposal d e =
        "Model recommendation: " ++ d.recommended_model ++ "\n" ++
        ("Reasoning: " ++ d.reasoning ++ "\n" ++
        ("Expert analysis (confidence: " ++ numToString e.confidence ++ "):" ++ "\n" ++
        jsSlice e.output 2000))) ∧
    demoExec.confidence = 0.88 ∧
    strIncludes (buildProposal demoDelegate demoExec) "codex-5.3" = true ∧
    strIncludes (buildProposal demoDelegate demoExec) "confidence: 0.88" = true ∧
    strIncludes (buildProposal demoDelegate demoExec) (jsSlice demoExec.output 2000) = true ∧
    longExec.output.length = 5000 ∧
    (buildProposal demoDelegate longExec).length ≤ 2200 := by
  have hline1 : ∀ t : String, ("Model recommendation: " ++ t) ≠ "" := fun t => by
    apply ne_empty_of_length_pos
    simp only [String.length_append]
    have : 0 < ("Model recommendation: " : String).length := by decide
    omega
  have hline2 : ∀ t : String, ("Reasoning: " ++ t) ≠ "" := fun t => by
    apply ne_empty_of_length_pos
    simp only [String.length_append]
    have : 0 < ("Reasoning: " : String).length := by decide
    omega
  have hline3 : ∀ t : String, ("Alternatives: " ++ t) ≠ "" := fun t => by
    apply ne_empty_of_length_pos
    simp only [String.length_append]
    have : 0 < ("Alternatives: " : String).length := by decide
    omega
  have hline4 : ∀ t : String, ("Expert analysis (confidence: " ++ t ++ "):") ≠ "" := fun t => by
    apply ne_empty_of_length_pos
    simp only [String.length_append]
    have : 0 < ("Expert analysis (confidence: " : String).length := by decide
    omega
  have hout2000 : ∀ t : String, t ≠ "" → jsSlice t 2000 ≠ "" := fun t ht => by
    apply ne_empty_of_length_pos
    show 0 < (t.data.take 2000).length
    rw [List.length_take]
    have : t.data ≠ [] := fun hd => ht (String.ext hd)
    cases hx : t.data with
    | nil => exact absurd hx this
    | cons c cs => simp [hx]
  have hshapeA : ∀ (d : DelegateResponse) (e : ExecuteExpertResponse),
      e.output ≠ "" → d.alternatives ≠ [] →
      buildProposal d e =
        "Model recommendation: " ++ d.recommended_model ++ "\n" ++
        ("Reasoning: " ++ d.reasoning ++ "\n" ++
        ("Alternatives: " ++ String.intercalate ", "
            (d.alternatives.map
              (fun a => a.model ++ " (score: " ++ numToString a.score ++ ")")) ++ "\n" ++
        ("Expert analysis (confidence: " ++ numToString e.confidence ++ "):" ++ "\n" ++
        jsSlice e.output 2000))) := by
    intro d e hout halts
    have halt := altText_ne_empty d.alternatives halts
    simp only [buildProposal, bne_empty_of_ne halt, if_true,
      List.filter_cons, List.filter_nil,
      bne_empty_of_ne (hline1 d.recommended_model),
      bne_empty_of_ne (hline2 d.reasoning),
      bne_empty_of_ne (hline3 _),
      bne_empty_of_ne (hline4 (numToString e.confidence)),
      bne_empty_of_ne (hout2000 e.output hout)]
    simp [String.intercalate, String.intercalate.go, String.append_assoc]
  have hlonglen : longExec.output.length = 5000 := by
    show (List.replicate 5000 'x').length = 5000
    rw [List.length_replicate]
  have hlongne : longExec.output ≠ "" := by
    intro he
    rw [he] at hlonglen
    exact absurd hlonglen (by decide)
  have hslice : (jsSlice longExec.output 2000).length = 2000 := by
    show ((List.replicate 5000 'x').take 2000).length = 2000
    rw [List.take_replicate, List.length_replicate]
    omega
  refine ⟨hshapeA, ?_, ?_, by decide, by decide, by decide, ?_, ?_⟩
  · intro d e hout halts
    simp only [buildProposal, halts, List.map_nil]
    have hempty : String.intercalate ", " ([] : List String) = "" := rfl
    simp only [hempty, List.filter_cons, List.filter_nil,
      bne_empty_of_ne (hline1 d.recommended_model),
      bne_empty_of_ne (hline2 d.reasoning),
      bne_empty_of_ne (hline4 (numToString e.confidence)),
      bne_empty_of_ne (hout2000 e.output hout)]
    simp [String.intercalate, String.intercalate.go, String.append_assoc]
  · rw [show demoExec.confidence = (⟨22, 25, by decide, by decide⟩ : Rat) from rfl,
      Rat.mk'_eq_divInt]
    norm_num [Rat.divInt_eq_div]
  · exact hlonglen
  · rw [hshapeA demoDelegate longExec hlongne (by decide)]
    simp only [String.length_append]
    rw [hslice]
    decide

/-- Instantiation of C6's shape equations at the concrete fixtures. -/
theorem claim_C6_witness :
    demoExec.output ≠ "" ∧ demoDelegate.alternatives ≠ [] ∧
    buildProposal demoDelegate demoExec =
      "Model recommendation: " ++ demoDelegate.recommended_model ++ "\n" ++
      ("Reasoning: " ++ demoDelegate.reasoning ++ "\n" ++
      ("Alternatives: " ++ String.intercalate ", "
          (demoDelegate.alternatives.map
            (fun a => a.model ++ " (score: " ++ numToString a.score ++ ")")) ++ "\n" ++
      ("Expert analysis (confidence: " ++ numToString demoExec.confidence ++ "):" ++ "\n" ++
      jsSlice demoExec.output 2000))) :=
  ⟨by decide, by decide, claim_C6.1 demoDelegate demoExec (by decide) (by decide)⟩

/-! ## C9: uniqueness of strategy values -/

/-- The five strategy names are pairwise distinct, so `name` is injective. -/
theorem name_injective : Function.Injective VotingStrategy.name := by
  intro a b h
  cases a <;> cases b <;> first
    | rfl
    | exact absurd h (by decide)

/-- When every successful vote response echoes the requested strategy's
name, the collected strategy values form a sublist of the requested
strategies' names. -/
theorem voteAll_strategies_sublist (caller : Caller) (proposal : String) :
    ∀ l : List VotingStrategy,
      (∀ s ∈ l, ∀ v, caller.vote proposal s = .ok v → v.strategy = s.name) →
      ((voteAll caller proposal l).1.map (fun sr => sr.strategy)).Sublist
        (l.map VotingStrategy.name)
  | [], _ => by simp [voteAll]
  | s :: rest, hecho => by
    have ih := voteAll_strategies_sublist caller proposal rest
      (fun t ht => hecho t (List.mem_cons_of_mem _ ht))
    simp only [voteAll, List.map_cons]
    cases h : caller.vote proposal s with
    | ok v =>
      have hv := hecho s (List.mem_cons_self _ _) v h
      simp only [List.map_cons, toStrategyResult, hv]
      exact List.Sublist.cons₂ _ ih
    | error e =>
      exact List.Sublist.cons _ ih

/-- C9 fails on the code as stated: the strategy stored in each
`StrategyResult` is copied — through an unchecked cast — from the vote
*response*, whose schema only requires a string; a gateway reporting
`simple_majority` in every response yields five identical strategy values
within one `ShowdownResult`. -/
theorem claim_C9_counterexample :
    Except.map (fun r => r.strategyResults.map (fun sr => sr.strategy))
      (runShowdown echoSameCaller defaultConfig).1 =
      Except.ok ["simple_majority", "simple_majority", "simple_majority",
        "simple_majority", "simple_majority"] ∧
    ¬ (["simple_majority", "simple_majority", "simple_majority",
        "simple_majority", "simple_majority"] : List String).Nodup := by
  exact ⟨rfl, by decide⟩

/-- C9 (amended): the strategy values within one `ShowdownResult` are
pairwise distinct **provided** each vote response echoes the name of the
strategy that was requested and the attempted strategy list has no
duplicates (both hold for an honest gateway under the default
configuration); without these provisos the claim fails, since the stored
strategy comes from the response via an unchecked cast and the configured
list may itself repeat a strategy. -/
theorem claim_C9 (caller : Caller) (config : ShowdownConfig)
    (delegation : DelegateResponse) (expert : CreateExpertResponse)
    (expertResult : ExecuteExpertResponse)
    (hdel : caller.delegate config.task config.preferredCapability = .ok delegation)
    (hcre : caller.createExpert (chosenRole config) = .ok expert)
    (hexe : caller.executeExpert expert.expertId (expertTaskText config delegation) =
      .ok expertResult)
    (hecho : ∀ s v, caller.vote (buildProposal delegation expertResult) s = .ok v →
      v.strategy = s.name)
    (hnodup : (chosenStrategies config).Nodup) :
    ∀ l, Except.map (fun r => r.strategyResults.map (fun sr => sr.strategy))
      (runShowdown caller config).1 = Except.ok l → l.Nodup := by
  intro l hl
  rw [runShowdown_ok caller config delegation expert expertResult hdel hcre hexe] at hl
  simp only [Except.map] at hl
  injection hl with hl
  rw [← hl]
  have hsub := voteAll_strategies_sublist caller (buildProposal delegation expertResult)
    (chosenStrategies config) (fun t _ => hecho t)
  exact List.Nodup.sublist hsub (hnodup.map name_injective)

/-- Instantiation of the amended C9 at the honest mock gateway and the
default configuration. -/
theorem claim_C9_witness :
    Except.map (fun r => r.strategyResults.map (fun sr => sr.strategy))
      (runShowdown okCaller defaultConfig).1 =
      Except.ok ["simple_majority", "supermajority", "unanimous", "proof_of_learning",
        "higher_order"] ∧
    (["simple_majority", "supermajority", "unanimous", "proof_of_learning",
      "higher_order"] : List String).Nodup := by
  constructor
  · rfl
  · exact claim_C9 okCaller defaultConfig demoDelegate demoExpert demoExec rfl rfl rfl
      (fun s v hv => by injection hv with hv; rw [← hv]; rfl) (by decide) _ rfl

end ModelShowdown
